import Mathlib

set_option maxRecDepth 8000

attribute [local semireducible] Rat.add Rat.mul Rat.sub Rat.inv

/-!
Shallow embedding of the FIFO capital-gain calculator
(source: src/cap-gain-calculator.py).

Conventions of the embedding:
* Currency amounts and unit quantities are exact rationals.
* Timestamps are integer seconds; the 15-second margin leeway and the
  365-day holding-period threshold become the integer constants below.
* Each per-asset pandas deque is a list whose head is the entry the
  script pops next (the script builds with appendleft and pops from the
  right, so pop order equals ledger order).
* Reading the spreadsheet, validation and output formatting are out of
  scope per the spec; the matcher receives the already-sorted,
  already-validated transaction sequence.
* The matching pass is pure except for one possible runtime failure:
  line 216 of the script reads the variable buy_tx, which is unset when
  the first processed sale is a margin sale.  Fallible steps therefore
  return Except String.
-/

/-- One validated row of the input ledger, already sorted by
(timestamp, IRS ID) by the out-of-scope loader. -/
structure InputTx where
  asset : String
  kind : String
  timestamp : Int
  units : ℚ
  totalAmount : ℚ
  irsId : String
  deriving DecidableEq

/-- A transaction while it lives in a buy or sell queue
(script: a pandas row with Timestamp, Units, Total Amount, IRS ID). -/
structure Transaction where
  timestamp : Int
  units : ℚ
  totalAmount : ℚ
  irsId : String
  deriving DecidableEq

/-- Dust threshold .00000001 of script lines 206 and 260. -/
def dust : ℚ := Rat.divInt 1 100000000

/-- The Python builtin abs on an exact rational, written so that it
evaluates by cases on the sign. -/
def absQ (x : ℚ) : ℚ := if x < 0 then -x else x

theorem absQ_eq_abs (x : ℚ) : absQ x = |x| := by
  unfold absQ
  rcases lt_or_ge x 0 with h | h
  · rw [if_pos h, abs_of_neg h]
  · rw [if_neg (not_lt.mpr h), abs_of_nonneg h]

/-- The 15-second leeway of the margin test (script line 135). -/
def marginLeewaySec : Int := 15

/-- 365 days in seconds: the holding-period threshold of script line 216. -/
def longTermSec : Int := 365 * 86400

/-- Sentinel written into the IRS ID Buy column of a margin match
(script line 139). -/
def marginSentinel : String := "MARGIN"

/-- The error the Python interpreter raises at script line 216 when
buy_tx was never assigned. -/
def nameErrorMsg : String := "NameError: buy_tx is not defined"

/-- Modelling artifact: message returned when the loop fuel runs out.
The theorem for claim C2 proves this value is never produced. -/
def fuelMsg : String := "unreachable: fuel exhausted"

/-- A match record: one row of a FIFO detail table or of the margin
table (script fieldnames, line 99).  The carryover-only columns
Remainder Units / Remainder Basis are carried by a separate row kind. -/
structure MatchRec where
  asset : String
  irsIdBuy : String
  irsIdSell : String
  datePurchased : Int
  dateSold : Int
  units : ℚ
  salePrice : ℚ
  basis : ℚ
  gainLoss : ℚ
  deriving DecidableEq

/-- One bucket of the year summary: STCG, STCL, LTCG, LTCL, Net CG
(script lines 110 and 214). -/
structure Bucket where
  stcg : ℚ
  stcl : ℚ
  ltcg : ℚ
  ltcl : ℚ
  netcg : ℚ
  deriving DecidableEq

/-- The zero bucket a fresh year starts from (script line 214). -/
def bucket0 : Bucket := { stcg := 0, stcl := 0, ltcg := 0, ltcl := 0, netcg := 0 }

/-- The year summary: the totals bucket (key totals, script line 110)
plus the per-year buckets in insertion order. -/
structure YearSummary where
  totals : Bucket
  perYear : List (Int × Bucket)
  deriving DecidableEq

/-- Initial year summary: zero totals, no years yet. -/
def ys0 : YearSummary := { totals := bucket0, perYear := [] }

/-- Per-asset volume summary (script line 125). -/
structure VolumeSummary where
  gainLoss : ℚ
  salePrice : ℚ
  basis : ℚ
  remainderUnits : ℚ
  remainderBasis : ℚ
  deriving DecidableEq

/-- Initial volume summary for an asset. -/
def vol0 : VolumeSummary :=
  { gainLoss := 0, salePrice := 0, basis := 0, remainderUnits := 0, remainderBasis := 0 }

/-- A row of a per-asset FIFO detail table: a match row (lines 205-208),
a carryover row (lines 244-262) or the closing volume-summary row
(lines 264-266). -/
inductive FifoRow where
  | matchRow (m : MatchRec)
  | carryRow (irsIdBuy : String) (datePurchased : Int)
      (remainderUnits remainderBasis : ℚ)
  | volumeRow (v : VolumeSummary)
  deriving DecidableEq

/-- Calendar year of a day count relative to 1970-01-01, via the
standard civil-from-days conversion (what pandas Timestamp.year
computes). -/
def yearOfDay (z0 : Int) : Int :=
  let z := z0 + 719468
  let era := Int.fdiv z 146097
  let doe := z - era * 146097
  let yoe := Int.fdiv (doe - Int.fdiv doe 1460 + Int.fdiv doe 36524 - Int.fdiv doe 146096) 365
  let y := yoe + era * 400
  let doy := doe - (365 * yoe + Int.fdiv yoe 4 - Int.fdiv yoe 100)
  let mp := Int.fdiv (5 * doy + 2) 153
  if 10 ≤ mp then y + 1 else y

/-- Calendar year of a timestamp in seconds (script line 211). -/
def yearOf (t : Int) : Int := yearOfDay (Int.fdiv t 86400)

/-- Add a gain/loss into one bucket: pick the short/long and gain/loss
cell per script lines 216-229, then bump Net CG per lines 231-232. -/
def bumpBucket (isLong isGain : Bool) (gl : ℚ) (bk : Bucket) : Bucket :=
  let bk1 :=
    if isLong then
      if isGain then { bk with ltcg := bk.ltcg + gl } else { bk with ltcl := bk.ltcl + gl }
    else
      if isGain then { bk with stcg := bk.stcg + gl } else { bk with stcl := bk.stcl + gl }
  { bk1 with netcg := bk1.netcg + gl }

/-- Apply an update to the bucket of year y, creating the zero bucket
first when the year is new (script lines 213-214); dict insertion order
is preserved. -/
def updatePerYear (y : Int) (f : Bucket → Bucket) :
    List (Int × Bucket) → List (Int × Bucket)
  | [] => [(y, f bucket0)]
  | (y0, bk) :: rest =>
      if y0 = y then (y0, f bk) :: rest else (y0, bk) :: updatePerYear y f rest

/-- One year-summary update for a match (script lines 210-232): the
holding period compares the sale timestamp with the timestamp of the
buy_tx variable; the same cell of the year bucket and of the totals
bucket receive the gain/loss. -/
def updateYearSummary (ys : YearSummary) (sellTs buyTs : Int) (gl : ℚ) : YearSummary :=
  let isLong : Bool := ! decide (sellTs - buyTs < longTermSec)
  let isGain : Bool := decide (0 < gl)
  { totals := bumpBucket isLong isGain gl ys.totals,
    perYear := updatePerYear (yearOf sellTs) (bumpBucket isLong isGain gl) ys.perYear }

/-- The result of one pop-a-sale step of the matching loop
(script lines 130-200): the match record, whether the margin branch was
taken, the buy queue afterwards, the reduced sale to push back at the
head of the sale queue (if any), and the buy transaction popped (if
any). -/
structure StepOut where
  m : MatchRec
  isMargin : Bool
  buys : List Transaction
  reqSell : Option Transaction
  poppedBuy : Option Transaction
  deriving DecidableEq

/-- The margin match record of script lines 139-146: matched units are
the absolute sale units, the proceeds become the gain, the basis is
zero, and both dates are the sale date. -/
def marginM (a : String) (s : Transaction) : MatchRec :=
  { asset := a, irsIdBuy := marginSentinel, irsIdSell := s.irsId,
    datePurchased := s.timestamp, dateSold := s.timestamp,
    units := absQ s.units, salePrice := s.totalAmount, basis := 0,
    gainLoss := s.totalAmount }

/-- One step of the matching loop on a popped sale s (script lines
130-200).  Margin branch: buy queue empty or earliest buy more than 15
seconds after the sale.  Otherwise the earliest buy is popped and the
magnitudes compared.  The gainLoss field carries the value the script
stores at line 203 (salePrice - basis) before any read of the field;
in the margin branch it is the value set at line 146. -/
def stepResult (a : String) (buys : List Transaction) (s : Transaction) : StepOut :=
  match buys with
  | [] =>
      { m := marginM a s, isMargin := true, buys := [],
        reqSell := none, poppedBuy := none }
  | b :: brest =>
      if s.timestamp + marginLeewaySec < b.timestamp then
        { m := marginM a s, isMargin := true, buys := b :: brest,
          reqSell := none, poppedBuy := none }
      else if b.units < absQ s.units then
        -- sale units greater: buy fully consumed (lines 164-177)
        let proRataSalePrice := b.units / absQ s.units * s.totalAmount
        { m := { asset := a, irsIdBuy := b.irsId, irsIdSell := s.irsId,
                 datePurchased := b.timestamp, dateSold := s.timestamp,
                 units := b.units, salePrice := proRataSalePrice,
                 basis := b.totalAmount,
                 gainLoss := proRataSalePrice - b.totalAmount },
          isMargin := false, buys := brest,
          reqSell := some { s with units := s.units + b.units,
                                   totalAmount := s.totalAmount - proRataSalePrice },
          poppedBuy := some b }
      else if absQ s.units < b.units then
        -- buy units greater: sale fully consumed (lines 180-193)
        let proRataBasis := absQ s.units / b.units * b.totalAmount
        { m := { asset := a, irsIdBuy := b.irsId, irsIdSell := s.irsId,
                 datePurchased := b.timestamp, dateSold := s.timestamp,
                 units := absQ s.units, salePrice := s.totalAmount,
                 basis := proRataBasis,
                 gainLoss := s.totalAmount - proRataBasis },
          isMargin := false,
          buys := { b with units := b.units + s.units,
                           totalAmount := b.totalAmount - proRataBasis } :: brest,
          reqSell := none, poppedBuy := some b }
      else
        -- equal magnitudes: both fully consumed (lines 196-200)
        { m := { asset := a, irsIdBuy := b.irsId, irsIdSell := s.irsId,
                 datePurchased := b.timestamp, dateSold := s.timestamp,
                 units := b.units, salePrice := s.totalAmount,
                 basis := b.totalAmount,
                 gainLoss := s.totalAmount - b.totalAmount },
          isMargin := false, buys := brest, reqSell := none, poppedBuy := some b }

/-- Push a reduced transaction back at the head of a queue, if any. -/
def requeue (o : Option Transaction) (rest : List Transaction) : List Transaction :=
  match o with
  | some t => t :: rest
  | none => rest

/-- The buy_tx variable after a step: it is reassigned only when a buy
was popped (script lines 155 and 242); otherwise it keeps its previous
value. -/
def pickLastBuy (o : Option Transaction) (lb : Option Transaction) : Option Transaction :=
  match o with
  | some b => some b
  | none => lb

/-- Script line 203: store Gain / Loss = Sale Price - Basis on the
match. -/
def finalizeM (m : MatchRec) : MatchRec :=
  { m with gainLoss := m.salePrice - m.basis }

/-- The shared tail of every loop iteration (script lines 202-237):
recompute Gain / Loss as salePrice - basis (line 203), append the match
to the FIFO detail table only above the dust threshold (lines 205-208),
update the year summary using buy_tx (lines 210-232) - a NameError when
buy_tx was never assigned - and accumulate the volume summary
(lines 234-237). -/
def postMatch (m0 : MatchRec) (sellTs : Int) (lastBuy : Option Transaction)
    (ys : YearSummary) (vol : VolumeSummary) (fr : List FifoRow) :
    Except String (MatchRec × YearSummary × VolumeSummary × List FifoRow) :=
  let m : MatchRec := finalizeM m0
  let fr' := if dust < absQ m.units then fr ++ [FifoRow.matchRow m] else fr
  match lastBuy with
  | none => Except.error nameErrorMsg
  | some b =>
      Except.ok (m,
        updateYearSummary ys sellTs b.timestamp m.gainLoss,
        { vol with gainLoss := vol.gainLoss + m.gainLoss,
                   salePrice := vol.salePrice + m.salePrice,
                   basis := vol.basis + m.basis },
        fr')

/-- The matcher state for one asset: the two queues, the shared buy_tx
variable, the year summary and margin table (shared across assets), the
asset volume summary and FIFO rows, plus a ghost event trace of every
match (margin flag and finalized record), kept only to state
conservation; it is not part of the program output. -/
structure MState where
  asset : String
  buys : List Transaction
  sells : List Transaction
  lastBuy : Option Transaction
  ys : YearSummary
  vol : VolumeSummary
  fr : List FifoRow
  mr : List MatchRec
  trace : List (Bool × MatchRec)
  deriving DecidableEq

/-- One full iteration of the while loop (script lines 128-237) on the
popped sale s: take the step, append a margin match to the margin table
(line 149, with the line-146 Gain / Loss), update buy_tx, then run the
shared tail. -/
def loopBody (st : MState) (s : Transaction) (rest : List Transaction) :
    Except String MState :=
  let r := stepResult st.asset st.buys s
  let mr' := if r.isMargin then st.mr ++ [r.m] else st.mr
  let lastBuy' := pickLastBuy r.poppedBuy st.lastBuy
  match postMatch r.m s.timestamp lastBuy' st.ys st.vol st.fr with
  | Except.error e => Except.error e
  | Except.ok (m, ys', vol', fr') =>
      Except.ok { st with buys := r.buys, sells := requeue r.reqSell rest,
                          lastBuy := lastBuy', ys := ys', vol := vol',
                          fr := fr', mr := mr',
                          trace := st.trace ++ [(r.isMargin, m)] }

/-- The while loop with explicit fuel; the fuel is only a structural
bound (each iteration shrinks buys.length + sells.length, proved for
claim C2), so the fuel branch is unreachable from the wrapper below. -/
def matchLoopF : Nat → MState → Except String MState
  | 0, _ => Except.error fuelMsg
  | n + 1, st =>
      match st.sells with
      | [] => Except.ok st
      | s :: rest =>
          match loopBody st s rest with
          | Except.error e => Except.error e
          | Except.ok st2 => matchLoopF n st2

/-- The while loop of script lines 128-237, run to completion. -/
def matchLoop (st : MState) : Except String MState :=
  matchLoopF (st.buys.length + st.sells.length + 1) st

/-- The carryover loop (script lines 241-262): pop each remaining buy
(reassigning buy_tx, line 242), accumulate its units and amount into
the volume summary unconditionally (lines 256-257), and emit a
carryover row only when units exceed dust (line 260). -/
def carryLoop (buys : List Transaction) (lastBuy : Option Transaction)
    (vol : VolumeSummary) (fr : List FifoRow) :
    Option Transaction × VolumeSummary × List FifoRow :=
  match buys with
  | [] => (lastBuy, vol, fr)
  | b :: rest =>
      let vol' := { vol with remainderUnits := vol.remainderUnits + b.units,
                             remainderBasis := vol.remainderBasis + b.totalAmount }
      let fr' :=
        if dust < b.units then
          fr ++ [FifoRow.carryRow b.irsId b.timestamp b.units b.totalAmount]
        else fr
      carryLoop rest (some b) vol' fr'

/-- Result of processing one asset. -/
structure AssetOut where
  fifoRows : List FifoRow
  lastBuy : Option Transaction
  ys : YearSummary
  mr : List MatchRec
  trace : List (Bool × MatchRec)
  vol : VolumeSummary
  deriving DecidableEq

/-- The matcher state at the top of an asset loop iteration: fresh
volume summary and FIFO table, queues from the ledger, everything else
carried over (script lines 113-126). -/
def initState (a : String) (buys sells : List Transaction)
    (lastBuy : Option Transaction) (ys : YearSummary) (mr : List MatchRec) : MState :=
  { asset := a, buys := buys, sells := sells, lastBuy := lastBuy,
    ys := ys, vol := vol0, fr := [], mr := mr, trace := [] }

/-- Process one asset (script lines 113-266): fresh match defaults and
volume summary, the matching loop, the carryover loop, then the closing
volume-summary row.  The buy_tx variable, year summary and margin table
persist across assets. -/
def runAsset (a : String) (buys sells : List Transaction)
    (lastBuy : Option Transaction) (ys : YearSummary) (mr : List MatchRec) :
    Except String AssetOut :=
  match matchLoop (initState a buys sells lastBuy ys mr) with
  | Except.error e => Except.error e
  | Except.ok st1 =>
      let c := carryLoop st1.buys st1.lastBuy st1.vol st1.fr
      Except.ok { fifoRows := c.2.2 ++ [FifoRow.volumeRow c.2.1],
                  lastBuy := c.1, ys := st1.ys, mr := st1.mr,
                  trace := st1.trace, vol := c.2.1 }

/-- Queue view of a transaction row. -/
def toTransaction (t : InputTx) : Transaction :=
  { timestamp := t.timestamp, units := t.units,
    totalAmount := t.totalAmount, irsId := t.irsId }

/-- The buy queue of an asset, in pop order (script lines 81-84:
appendleft on the sorted sequence, popped from the right). -/
def buysFor (input : List InputTx) (a : String) : List Transaction :=
  (input.filter fun t => t.asset == a && t.kind == "Buy").map toTransaction

/-- The sell queue of an asset, in pop order (script lines 85-88). -/
def sellsFor (input : List InputTx) (a : String) : List Transaction :=
  (input.filter fun t => t.asset == a && t.kind == "Sell").map toTransaction

/-- Assets in first-appearance order (script lines 74-78: dict
insertion order of asset_map). -/
def assetOrder (input : List InputTx) : List String :=
  input.foldl (fun acc t => if t.asset ∈ acc then acc else acc ++ [t.asset]) []

/-- Output of the whole matching pass: the per-asset FIFO tables, the
cross-asset margin table, the year summary, plus (for the statements of
the theorems) the per-asset volume summaries and ghost match traces. -/
structure RunResult where
  fifo : List (String × List FifoRow)
  margin : List MatchRec
  ys : YearSummary
  vols : List (String × VolumeSummary)
  traces : List (String × List (Bool × MatchRec))
  deriving DecidableEq

/-- Fold runAsset over the asset list, threading buy_tx, the year
summary and the margin table (script line 113 for loop). -/
def runAssets (input : List InputTx) :
    List String → Option Transaction → YearSummary → List MatchRec →
    List (String × List FifoRow) → List (String × VolumeSummary) →
    List (String × List (Bool × MatchRec)) → Except String RunResult
  | [], _, ys, mr, fifos, vols, traces =>
      Except.ok { fifo := fifos, margin := mr, ys := ys, vols := vols, traces := traces }
  | a :: rest, lb, ys, mr, fifos, vols, traces =>
      match runAsset a (buysFor input a) (sellsFor input a) lb ys mr with
      | Except.error e => Except.error e
      | Except.ok out =>
          runAssets input rest out.lastBuy out.ys out.mr
            (fifos ++ [(a, out.fifoRows)])
            (vols ++ [(a, out.vol)])
            (traces ++ [(a, out.trace)])

/-- The whole matching pass (script sections 2 and 3) on a validated,
sorted ledger. -/
def runAll (input : List InputTx) : Except String RunResult :=
  runAssets input (assetOrder input) none ys0 [] [] [] []

/-! ## Observers used by the statements -/

/-- Sum of the units of a queue. -/
def sumUnits (l : List Transaction) : ℚ := (l.map Transaction.units).sum

/-- Total units purchased for an asset in the ledger. -/
def totalBuyUnits (input : List InputTx) (a : String) : ℚ :=
  sumUnits (buysFor input a)

/-- Matched units over a ghost trace, counting non-margin matches only. -/
def traceMatched (tr : List (Bool × MatchRec)) : ℚ :=
  (tr.map fun p => if p.1 then 0 else p.2.units).sum

/-- Matched units summed over the non-margin match rows actually emitted
into a FIFO detail table. -/
def emittedMatchedUnits (rows : List FifoRow) : ℚ :=
  (rows.map fun row =>
    match row with
    | FifoRow.matchRow m => if m.irsIdBuy == marginSentinel then 0 else m.units
    | _ => 0).sum

/-- Carryover remainder units summed over the rows actually emitted into
a FIFO detail table. -/
def emittedRemainderUnits (rows : List FifoRow) : ℚ :=
  (rows.map fun row =>
    match row with
    | FifoRow.carryRow _ _ ru _ => ru
    | _ => 0).sum

/-- Whether a detail table contains a margin match row. -/
def hasMarginRow (rows : List FifoRow) : Bool :=
  rows.any fun row =>
    match row with
    | FifoRow.matchRow m => m.irsIdBuy == marginSentinel
    | _ => false

/-- The single-bucket invariant of the spec: Net CG is the sum of the
four cells. -/
def bucketOk (bk : Bucket) : Prop :=
  bk.netcg = bk.stcg + bk.stcl + bk.ltcg + bk.ltcl

/-- Sum of one bucket field over the per-year buckets. -/
def sumField (f : Bucket → ℚ) (l : List (Int × Bucket)) : ℚ :=
  (l.map fun p => f p.2).sum

/-- The year-summary invariant of the spec: every bucket satisfies
bucketOk and every field of the totals bucket is the sum of that field
over the per-year buckets. -/
def ysOk (ys : YearSummary) : Prop :=
  bucketOk ys.totals ∧ (∀ p ∈ ys.perYear, bucketOk p.2) ∧
  ys.totals.stcg = sumField Bucket.stcg ys.perYear ∧
  ys.totals.stcl = sumField Bucket.stcl ys.perYear ∧
  ys.totals.ltcg = sumField Bucket.ltcg ys.perYear ∧
  ys.totals.ltcl = sumField Bucket.ltcl ys.perYear ∧
  ys.totals.netcg = sumField Bucket.netcg ys.perYear

instance (ys : YearSummary) : Decidable (ysOk ys) := by
  unfold ysOk bucketOk; infer_instance

/-! ## Concrete ledgers used by witnesses and counterexamples -/

/-- Buy 1 unit for 1000 at time 0; sell 2 units for 4000 at time
34560000 (400 days later).  The second half of the sale is uncovered. -/
def ex1 : List InputTx :=
  [ { asset := "A", kind := "Buy", timestamp := 0, units := 1,
      totalAmount := 1000, irsId := "B1" },
    { asset := "A", kind := "Sell", timestamp := 34560000, units := -2,
      totalAmount := 4000, irsId := "S1" } ]

/-- An exactly-covered sale followed by a dust-sized uncovered sale. -/
def ex2 : List InputTx :=
  [ { asset := "A", kind := "Buy", timestamp := 0, units := 1,
      totalAmount := 100, irsId := "B1" },
    { asset := "A", kind := "Sell", timestamp := 0, units := -1,
      totalAmount := 150, irsId := "S1" },
    { asset := "A", kind := "Sell", timestamp := 100, units := -(1/1000000000),
      totalAmount := 1, irsId := "S2" } ]

/-- A ledger whose first processed sale is uncovered (Scenario C of the
spec). -/
def ex3 : List InputTx :=
  [ { asset := "BTC", kind := "Sell", timestamp := 0, units := -(1/2),
      totalAmount := 5000, irsId := "S1" } ]

/-- A sale one billionth of a unit larger than the only purchase: the
requeued remainder is below the dust tolerance. -/
def ex4 : List InputTx :=
  [ { asset := "A", kind := "Buy", timestamp := 0, units := 1,
      totalAmount := 1, irsId := "B1" },
    { asset := "A", kind := "Sell", timestamp := 0, units := -(1 + 1/1000000000),
      totalAmount := 2, irsId := "S1" } ]

/-- Two dust-sized purchases fully consumed by one sale: every match is
suppressed from the detail table. -/
def ex5 : List InputTx :=
  [ { asset := "A", kind := "Buy", timestamp := 0, units := 1/100000000,
      totalAmount := 1, irsId := "B1" },
    { asset := "A", kind := "Buy", timestamp := 0, units := 1/100000000,
      totalAmount := 1, irsId := "B2" },
    { asset := "A", kind := "Sell", timestamp := 0, units := -(2/100000000),
      totalAmount := 3, irsId := "S1" } ]

/-- Scenario B of the spec: partial fill with carryover. -/
def ex6 : List InputTx :=
  [ { asset := "A", kind := "Buy", timestamp := 0, units := 2,
      totalAmount := 20000, irsId := "B1" },
    { asset := "A", kind := "Sell", timestamp := 864000, units := -1,
      totalAmount := 11000, irsId := "S1" } ]

/-! ## Characterization lemmas -/

/-- The state produced by a successful loop iteration, given the value b
of buy_tx used at script line 216. -/
def loopOut (st : MState) (s : Transaction) (rest : List Transaction)
    (b : Transaction) : MState :=
  let r := stepResult st.asset st.buys s
  let m := finalizeM r.m
  { st with buys := r.buys, sells := requeue r.reqSell rest,
            lastBuy := some b,
            ys := updateYearSummary st.ys s.timestamp b.timestamp m.gainLoss,
            vol := { st.vol with gainLoss := st.vol.gainLoss + m.gainLoss,
                                 salePrice := st.vol.salePrice + m.salePrice,
                                 basis := st.vol.basis + m.basis },
            fr := if dust < absQ m.units then st.fr ++ [FifoRow.matchRow m] else st.fr,
            mr := if r.isMargin then st.mr ++ [r.m] else st.mr,
            trace := st.trace ++ [(r.isMargin, m)] }

theorem postMatch_ok {m0 : MatchRec} {sellTs : Int} {lastBuy : Option Transaction}
    {ys : YearSummary} {vol : VolumeSummary} {fr : List FifoRow}
    {m : MatchRec} {ys2 : YearSummary} {vol2 : VolumeSummary} {fr2 : List FifoRow}
    (h : postMatch m0 sellTs lastBuy ys vol fr = Except.ok (m, ys2, vol2, fr2)) :
    ∃ b, lastBuy = some b ∧
      m = finalizeM m0 ∧
      ys2 = updateYearSummary ys sellTs b.timestamp (finalizeM m0).gainLoss ∧
      vol2 = { vol with gainLoss := vol.gainLoss + (finalizeM m0).gainLoss,
                        salePrice := vol.salePrice + (finalizeM m0).salePrice,
                        basis := vol.basis + (finalizeM m0).basis } ∧
      fr2 = (if dust < absQ (finalizeM m0).units then
               fr ++ [FifoRow.matchRow (finalizeM m0)] else fr) := by
  cases lastBuy with
  | none => simp [postMatch] at h
  | some b =>
      simp only [postMatch, Except.ok.injEq, Prod.mk.injEq] at h
      obtain ⟨h1, h2, h3, h4⟩ := h
      exact ⟨b, rfl, h1.symm, h2.symm, h3.symm, h4.symm⟩

theorem postMatch_error {m0 : MatchRec} {sellTs : Int} {lastBuy : Option Transaction}
    {ys : YearSummary} {vol : VolumeSummary} {fr : List FifoRow} {e : String}
    (h : postMatch m0 sellTs lastBuy ys vol fr = Except.error e) :
    e = nameErrorMsg := by
  cases lastBuy with
  | none => simpa [postMatch] using h.symm
  | some b => simp [postMatch] at h

theorem loopBody_ok {st : MState} {s : Transaction} {rest : List Transaction}
    {st2 : MState} (h : loopBody st s rest = Except.ok st2) :
    ∃ b, pickLastBuy (stepResult st.asset st.buys s).poppedBuy st.lastBuy = some b ∧
      st2 = loopOut st s rest b := by
  unfold loopBody at h
  dsimp only at h
  cases hpm : postMatch (stepResult st.asset st.buys s).m s.timestamp
      (pickLastBuy (stepResult st.asset st.buys s).poppedBuy st.lastBuy) st.ys st.vol st.fr with
  | error e =>
      rw [hpm] at h
      exact absurd h (by simp)
  | ok tup =>
      obtain ⟨m, ys', vol', fr'⟩ := tup
      rw [hpm] at h
      obtain ⟨b, hb, hm, hys, hvol, hfr⟩ := postMatch_ok hpm
      refine ⟨b, hb, ?_⟩
      simp only at h
      cases h
      subst hm hys hvol hfr
      simp only [loopOut, hb]

theorem loopBody_error {st : MState} {s : Transaction} {rest : List Transaction}
    {e : String} (h : loopBody st s rest = Except.error e) :
    e = nameErrorMsg := by
  unfold loopBody at h
  dsimp only at h
  cases hpm : postMatch (stepResult st.asset st.buys s).m s.timestamp
      (pickLastBuy (stepResult st.asset st.buys s).poppedBuy st.lastBuy) st.ys st.vol st.fr with
  | error e' =>
      rw [hpm] at h
      simp only [Except.error.injEq] at h
      cases h
      exact postMatch_error hpm
  | ok tup =>
      obtain ⟨m, ys', vol', fr'⟩ := tup
      rw [hpm] at h
      exact absurd h (by simp)

theorem stepResult_measure (a : String) (buys : List Transaction) (s : Transaction)
    (rest : List Transaction) :
    (stepResult a buys s).buys.length + (requeue (stepResult a buys s).reqSell rest).length
      < buys.length + (s :: rest).length := by
  cases buys with
  | nil => simp [stepResult, requeue]
  | cons b brest =>
      by_cases h1 : s.timestamp + marginLeewaySec < b.timestamp
      · simp [stepResult, h1, requeue]
      · by_cases h2 : b.units < absQ s.units
        · simp [stepResult, h1, h2, requeue]
        · by_cases h3 : absQ s.units < b.units
          · simp [stepResult, h1, h2, h3, requeue]
          · simp only [stepResult, h1, h2, h3, if_false, requeue, List.length_cons]
            omega

theorem loopBody_measure {st : MState} {s : Transaction} {rest : List Transaction}
    {st2 : MState} (h : loopBody st s rest = Except.ok st2) :
    st2.buys.length + st2.sells.length < st.buys.length + (s :: rest).length := by
  obtain ⟨b, hb, hst⟩ := loopBody_ok h
  subst hst
  simpa [loopOut] using stepResult_measure st.asset st.buys s rest

theorem matchLoopF_fuel_bound :
    ∀ (n : Nat) (st : MState), matchLoopF n st = Except.error fuelMsg →
      n ≤ st.buys.length + st.sells.length := by
  intro n
  induction n with
  | zero => intro st _; exact Nat.zero_le _
  | succ k ih =>
      intro st h
      simp only [matchLoopF] at h
      cases hsl : st.sells with
      | nil => rw [hsl] at h; exact absurd h (by simp)
      | cons s rest =>
          rw [hsl] at h
          dsimp only at h
          cases hlb : loopBody st s rest with
          | error e =>
              rw [hlb] at h
              have he := loopBody_error hlb
              subst he
              simp only [Except.error.injEq] at h
              exact absurd h (by decide)
          | ok st2 =>
              rw [hlb] at h
              dsimp only at h
              have hm := loopBody_measure hlb
              have hk := ih st2 h
              simp only [List.length_cons] at hm ⊢
              omega

theorem matchLoop_not_fuel (st : MState) : matchLoop st ≠ Except.error fuelMsg := by
  intro h
  unfold matchLoop at h
  have := matchLoopF_fuel_bound _ _ h
  omega

theorem matchLoopF_preserve (P : MState → Prop)
    (hstep : ∀ st s rest st2, st.sells = s :: rest →
      loopBody st s rest = Except.ok st2 → P st → P st2) :
    ∀ (n : Nat) (st st' : MState), matchLoopF n st = Except.ok st' → P st → P st' := by
  intro n
  induction n with
  | zero => intro st st' h; simp only [matchLoopF] at h; exact absurd h (by simp)
  | succ k ih =>
      intro st st' h hP
      simp only [matchLoopF] at h
      cases hsl : st.sells with
      | nil =>
          rw [hsl] at h
          simp only [Except.ok.injEq] at h
          subst h
          exact hP
      | cons s rest =>
          rw [hsl] at h
          dsimp only at h
          cases hlb : loopBody st s rest with
          | error e => rw [hlb] at h; exact absurd h (by simp)
          | ok st2 =>
              rw [hlb] at h
              dsimp only at h
              exact ih st2 st' h (hstep st s rest st2 hsl hlb hP)

theorem bumpBucket_stcg (il ig : Bool) (gl : ℚ) (bk : Bucket) :
    (bumpBucket il ig gl bk).stcg = bk.stcg + (if il = false ∧ ig = true then gl else 0) := by
  cases il <;> cases ig <;> simp [bumpBucket]

theorem bumpBucket_stcl (il ig : Bool) (gl : ℚ) (bk : Bucket) :
    (bumpBucket il ig gl bk).stcl = bk.stcl + (if il = false ∧ ig = false then gl else 0) := by
  cases il <;> cases ig <;> simp [bumpBucket]

theorem bumpBucket_ltcg (il ig : Bool) (gl : ℚ) (bk : Bucket) :
    (bumpBucket il ig gl bk).ltcg = bk.ltcg + (if il = true ∧ ig = true then gl else 0) := by
  cases il <;> cases ig <;> simp [bumpBucket]

theorem bumpBucket_ltcl (il ig : Bool) (gl : ℚ) (bk : Bucket) :
    (bumpBucket il ig gl bk).ltcl = bk.ltcl + (if il = true ∧ ig = false then gl else 0) := by
  cases il <;> cases ig <;> simp [bumpBucket]

theorem bumpBucket_netcg (il ig : Bool) (gl : ℚ) (bk : Bucket) :
    (bumpBucket il ig gl bk).netcg = bk.netcg + gl := by
  cases il <;> cases ig <;> simp [bumpBucket]

theorem bucketOk_bump (il ig : Bool) (gl : ℚ) (bk : Bucket) (h : bucketOk bk) :
    bucketOk (bumpBucket il ig gl bk) := by
  unfold bucketOk at h ⊢
  cases il <;> cases ig <;> simp [bumpBucket] <;> rw [h] <;> ring

theorem sumField_updatePerYear (f : Bucket → ℚ) (g : Bucket → Bucket) (d : ℚ)
    (hg : ∀ bk, f (g bk) = f bk + d) (h0 : f bucket0 = 0) (y : Int) :
    ∀ l : List (Int × Bucket),
      sumField f (updatePerYear y g l) = sumField f l + d := by
  intro l
  induction l with
  | nil => simp [updatePerYear, sumField, hg, h0]
  | cons p rest ih =>
      obtain ⟨y0, bk⟩ := p
      by_cases hy : y0 = y
      · simp only [updatePerYear, if_pos hy, sumField, List.map_cons, List.sum_cons, hg]
        simp only [sumField] at ih ⊢
        ring
      · simp only [updatePerYear, if_neg hy, sumField, List.map_cons, List.sum_cons] at ih ⊢
        rw [ih]
        ring

theorem mem_updatePerYear (P : Bucket → Prop) (g : Bucket → Bucket)
    (hP : ∀ bk, P bk → P (g bk)) (h0 : P (g bucket0)) (y : Int) :
    ∀ l : List (Int × Bucket), (∀ p ∈ l, P p.2) →
      ∀ p ∈ updatePerYear y g l, P p.2 := by
  intro l
  induction l with
  | nil =>
      intro _ p hp
      simp only [updatePerYear, List.mem_singleton] at hp
      subst hp
      exact h0
  | cons q rest ih =>
      intro hl p hp
      obtain ⟨y0, bk⟩ := q
      by_cases hy : y0 = y
      · simp only [updatePerYear, if_pos hy, List.mem_cons] at hp
        rcases hp with hp | hp
        · subst hp
          exact hP bk (hl (y0, bk) (List.mem_cons_self _ _))
        · exact hl p (List.mem_cons_of_mem _ hp)
      · simp only [updatePerYear, if_neg hy, List.mem_cons] at hp
        rcases hp with hp | hp
        · subst hp
          exact hl (y0, bk) (List.mem_cons_self _ _)
        · exact ih (fun q hq => hl q (List.mem_cons_of_mem _ hq)) p hp

theorem ysOk_update (ys : YearSummary) (sTs bTs : Int) (gl : ℚ) (h : ysOk ys) :
    ysOk (updateYearSummary ys sTs bTs gl) := by
  obtain ⟨hok, hmem, h1, h2, h3, h4, h5⟩ := h
  unfold updateYearSummary
  dsimp only
  refine ⟨bucketOk_bump _ _ _ _ hok,
          mem_updatePerYear bucketOk _ (fun bk hb => bucketOk_bump _ _ _ _ hb)
            (bucketOk_bump _ _ _ _ (by unfold bucketOk bucket0; norm_num)) _ _ hmem,
          ?_, ?_, ?_, ?_, ?_⟩
  · rw [bumpBucket_stcg,
        sumField_updatePerYear _ _ _ (bumpBucket_stcg _ _ gl) (by simp [bucket0]) _ _, h1]
  · rw [bumpBucket_stcl,
        sumField_updatePerYear _ _ _ (bumpBucket_stcl _ _ gl) (by simp [bucket0]) _ _, h2]
  · rw [bumpBucket_ltcg,
        sumField_updatePerYear _ _ _ (bumpBucket_ltcg _ _ gl) (by simp [bucket0]) _ _, h3]
  · rw [bumpBucket_ltcl,
        sumField_updatePerYear _ _ _ (bumpBucket_ltcl _ _ gl) (by simp [bucket0]) _ _, h4]
  · rw [bumpBucket_netcg,
        sumField_updatePerYear _ _ _ (bumpBucket_netcg _ _ gl) (by simp [bucket0]) _ _, h5]

theorem ysOk_ys0 : ysOk ys0 := by
  unfold ysOk ys0 bucketOk bucket0 sumField
  norm_num


theorem stepResult_nil (a : String) (s : Transaction) :
    stepResult a [] s =
      { m := marginM a s, isMargin := true, buys := [],
        reqSell := none, poppedBuy := none } := rfl

theorem stepResult_late (a : String) (b : Transaction) (brest : List Transaction)
    (s : Transaction) (h : s.timestamp + marginLeewaySec < b.timestamp) :
    stepResult a (b :: brest) s =
      { m := marginM a s, isMargin := true, buys := b :: brest,
        reqSell := none, poppedBuy := none } := by
  simp [stepResult, h]

theorem stepResult_gt (a : String) (b : Transaction) (brest : List Transaction)
    (s : Transaction) (h1 : ¬s.timestamp + marginLeewaySec < b.timestamp)
    (h2 : b.units < absQ s.units) :
    stepResult a (b :: brest) s =
      { m := { asset := a, irsIdBuy := b.irsId, irsIdSell := s.irsId,
               datePurchased := b.timestamp, dateSold := s.timestamp,
               units := b.units, salePrice := b.units / absQ s.units * s.totalAmount,
               basis := b.totalAmount,
               gainLoss := b.units / absQ s.units * s.totalAmount - b.totalAmount },
        isMargin := false, buys := brest,
        reqSell := some { s with units := s.units + b.units,
                                 totalAmount := s.totalAmount - b.units / absQ s.units * s.totalAmount },
        poppedBuy := some b } := by
  simp [stepResult, h1, h2]

theorem stepResult_lt (a : String) (b : Transaction) (brest : List Transaction)
    (s : Transaction) (h1 : ¬s.timestamp + marginLeewaySec < b.timestamp)
    (h2 : ¬b.units < absQ s.units) (h3 : absQ s.units < b.units) :
    stepResult a (b :: brest) s =
      { m := { asset := a, irsIdBuy := b.irsId, irsIdSell := s.irsId,
               datePurchased := b.timestamp, dateSold := s.timestamp,
               units := absQ s.units, salePrice := s.totalAmount,
               basis := absQ s.units / b.units * b.totalAmount,
               gainLoss := s.totalAmount - absQ s.units / b.units * b.totalAmount },
        isMargin := false,
        buys := { b with units := b.units + s.units,
                         totalAmount := b.totalAmount - absQ s.units / b.units * b.totalAmount } :: brest,
        reqSell := none, poppedBuy := some b } := by
  simp [stepResult, h1, h2, h3]

theorem stepResult_eq (a : String) (b : Transaction) (brest : List Transaction)
    (s : Transaction) (h1 : ¬s.timestamp + marginLeewaySec < b.timestamp)
    (h2 : ¬b.units < absQ s.units) (h3 : ¬absQ s.units < b.units) :
    stepResult a (b :: brest) s =
      { m := { asset := a, irsIdBuy := b.irsId, irsIdSell := s.irsId,
               datePurchased := b.timestamp, dateSold := s.timestamp,
               units := b.units, salePrice := s.totalAmount,
               basis := b.totalAmount,
               gainLoss := s.totalAmount - b.totalAmount },
        isMargin := false, buys := brest, reqSell := none, poppedBuy := some b } := by
  simp [stepResult, h1, h2, h3]

theorem traceMatched_append (tr : List (Bool × MatchRec)) (p : Bool × MatchRec) :
    traceMatched (tr ++ [p]) = traceMatched tr + (if p.1 then 0 else p.2.units) := by
  simp [traceMatched]

theorem stepResult_conserve (a : String) (buys : List Transaction) (s : Transaction)
    (hs : s.units ≤ 0) :
    (if (stepResult a buys s).isMargin then 0 else (stepResult a buys s).m.units)
        + sumUnits (stepResult a buys s).buys = sumUnits buys ∧
    (∀ x, (stepResult a buys s).reqSell = some x → x.units ≤ 0) := by
  have habs : absQ s.units = -s.units := by
    rw [absQ_eq_abs]
    exact abs_of_nonpos hs
  cases buys with
  | nil => rw [stepResult_nil]; simp
  | cons b brest =>
      by_cases h1 : s.timestamp + marginLeewaySec < b.timestamp
      · rw [stepResult_late a b brest s h1]; simp
      · by_cases h2 : b.units < absQ s.units
        · rw [stepResult_gt a b brest s h1 h2]
          constructor
          · simp [sumUnits]
          · intro x hx
            simp only [Option.some.injEq] at hx
            subst hx
            dsimp only
            rw [habs] at h2
            linarith
        · by_cases h3 : absQ s.units < b.units
          · rw [stepResult_lt a b brest s h1 h2 h3]
            constructor
            · simp only [if_false, Bool.false_eq_true, sumUnits, List.map_cons, List.sum_cons]
              rw [habs]
              ring
            · intro x hx
              simp at hx
          · rw [stepResult_eq a b brest s h1 h2 h3]
            constructor
            · simp [sumUnits]
            · intro x hx
              simp at hx

theorem step_conserve {st : MState} {s : Transaction} {rest : List Transaction}
    {st2 : MState} (hok : loopBody st s rest = Except.ok st2)
    (hs : s.units ≤ 0) (hrest : ∀ x ∈ rest, x.units ≤ 0) :
    traceMatched st2.trace + sumUnits st2.buys = traceMatched st.trace + sumUnits st.buys ∧
    st2.vol.remainderUnits = st.vol.remainderUnits ∧
    (∀ x ∈ st2.sells, x.units ≤ 0) := by
  obtain ⟨b, hb, hst⟩ := loopBody_ok hok
  subst hst
  obtain ⟨hcons, hreq⟩ := stepResult_conserve st.asset st.buys s hs
  refine ⟨?_, ?_, ?_⟩
  · simp only [loopOut]
    rw [traceMatched_append]
    simp only [finalizeM]
    linarith [hcons]
  · simp [loopOut]
  · intro x hx
    simp only [loopOut] at hx
    cases hrs : (stepResult st.asset st.buys s).reqSell with
    | none =>
        rw [hrs] at hx
        exact hrest x hx
    | some t =>
        rw [hrs] at hx
        simp only [requeue, List.mem_cons] at hx
        rcases hx with hx | hx
        · subst hx
          exact hreq x hrs
        · exact hrest x hx

theorem carryLoop_remainder :
    ∀ (buys : List Transaction) (lb : Option Transaction)
      (vol : VolumeSummary) (fr : List FifoRow),
      (carryLoop buys lb vol fr).2.1.remainderUnits = vol.remainderUnits + sumUnits buys := by
  intro buys
  induction buys with
  | nil => intro lb vol fr; simp [carryLoop, sumUnits]
  | cons b rest ih =>
      intro lb vol fr
      simp only [carryLoop]
      rw [ih]
      simp only [sumUnits, List.map_cons, List.sum_cons]
      ring

theorem runAsset_conserve {a : String} {buys sells : List Transaction}
    {lb : Option Transaction} {ys : YearSummary} {mr : List MatchRec} {out : AssetOut}
    (h : runAsset a buys sells lb ys mr = Except.ok out)
    (hsell : ∀ x ∈ sells, x.units ≤ 0) :
    traceMatched out.trace + out.vol.remainderUnits = sumUnits buys := by
  unfold runAsset at h
  cases hml : matchLoop (initState a buys sells lb ys mr) with
  | error e => rw [hml] at h; exact absurd h (by simp)
  | ok st1 =>
      rw [hml] at h
      dsimp only at h
      have hml' : matchLoopF ((initState a buys sells lb ys mr).buys.length +
          (initState a buys sells lb ys mr).sells.length + 1)
          (initState a buys sells lb ys mr) = Except.ok st1 := hml
      have hP := matchLoopF_preserve
        (fun st => traceMatched st.trace + sumUnits st.buys = sumUnits buys ∧
          st.vol.remainderUnits = 0 ∧ (∀ x ∈ st.sells, x.units ≤ 0))
        (by
          intro st s rest st2 hsl hlb hPst
          obtain ⟨hc, hv, hsg⟩ := hPst
          have hs : s.units ≤ 0 := hsg s (by rw [hsl]; exact List.mem_cons_self _ _)
          have hrest : ∀ x ∈ rest, x.units ≤ 0 :=
            fun x hx => hsg x (by rw [hsl]; exact List.mem_cons_of_mem _ hx)
          obtain ⟨h1, h2, h3⟩ := step_conserve hlb hs hrest
          exact ⟨by rw [h1, hc], by rw [h2, hv], h3⟩)
        _ _ st1 hml'
        ⟨by simp [initState, traceMatched], rfl, hsell⟩
      obtain ⟨hc1, hv1, _⟩ := hP
      have hcar := carryLoop_remainder st1.buys st1.lastBuy st1.vol st1.fr
      simp only [Except.ok.injEq] at h
      subst h
      dsimp only
      rw [hcar, hv1, zero_add]
      exact hc1

theorem runAsset_ysOk {a : String} {buys sells : List Transaction}
    {lb : Option Transaction} {ys : YearSummary} {mr : List MatchRec} {out : AssetOut}
    (h : runAsset a buys sells lb ys mr = Except.ok out) (hys : ysOk ys) :
    ysOk out.ys := by
  unfold runAsset at h
  cases hml : matchLoop (initState a buys sells lb ys mr) with
  | error e => rw [hml] at h; exact absurd h (by simp)
  | ok st1 =>
      rw [hml] at h
      dsimp only at h
      have hml' : matchLoopF ((initState a buys sells lb ys mr).buys.length +
          (initState a buys sells lb ys mr).sells.length + 1)
          (initState a buys sells lb ys mr) = Except.ok st1 := hml
      have hP := matchLoopF_preserve (fun st => ysOk st.ys)
        (by
          intro st s rest st2 hsl hlb hPst
          obtain ⟨b, hb, hst⟩ := loopBody_ok hlb
          subst hst
          simp only [loopOut]
          exact ysOk_update _ _ _ _ hPst)
        _ _ st1 hml' (by simpa [initState] using hys)
      simp only [Except.ok.injEq] at h
      subst h
      exact hP

theorem lookup_append_some {β : Type} (l l2 : List (String × β)) (k : String) (v : β)
    (h : l.lookup k = some v) : (l ++ l2).lookup k = some v := by
  induction l with
  | nil => simp [List.lookup] at h
  | cons p rest ih =>
      obtain ⟨k0, v0⟩ := p
      cases hk : k == k0 with
      | true => simp [List.lookup, hk] at h ⊢; exact h
      | false => simp only [List.cons_append, List.lookup, hk] at h ⊢; exact ih h

theorem lookup_append_none {β : Type} (l l2 : List (String × β)) (k : String)
    (h : l.lookup k = none) : (l ++ l2).lookup k = l2.lookup k := by
  induction l with
  | nil => simp
  | cons p rest ih =>
      obtain ⟨k0, v0⟩ := p
      cases hk : k == k0 with
      | true => simp [List.lookup, hk] at h
      | false => simp only [List.cons_append, List.lookup, hk] at h ⊢; exact ih h

theorem lookup_single {β : Type} (k k0 : String) (x : β) :
    List.lookup k [(k0, x)] = if k == k0 then some x else none := by
  cases hk : k == k0 with
  | true => simp [List.lookup, hk]
  | false => simp [List.lookup, hk]

theorem sellsFor_nonpos (input : List InputTx)
    (hs : ∀ t ∈ input, t.kind = "Sell" → t.units ≤ 0) (a : String) :
    ∀ x ∈ sellsFor input a, x.units ≤ 0 := by
  intro x hx
  simp only [sellsFor, List.mem_map, List.mem_filter] at hx
  obtain ⟨t, ⟨ht, hp⟩, rfl⟩ := hx
  simp only [Bool.and_eq_true, beq_iff_eq] at hp
  exact hs t ht hp.2

theorem runAssets_conserve (input : List InputTx)
    (hs : ∀ t ∈ input, t.kind = "Sell" → t.units ≤ 0) :
    ∀ (as : List String) (lb : Option Transaction) (ys : YearSummary)
      (mr : List MatchRec) (fifos : List (String × List FifoRow))
      (vols : List (String × VolumeSummary))
      (traces : List (String × List (Bool × MatchRec))) (r : RunResult),
      runAssets input as lb ys mr fifos vols traces = Except.ok r →
      (∀ a, vols.lookup a = none ↔ traces.lookup a = none) →
      (∀ a v tr, vols.lookup a = some v → traces.lookup a = some tr →
        traceMatched tr + v.remainderUnits = totalBuyUnits input a) →
      ∀ a v tr, r.vols.lookup a = some v → r.traces.lookup a = some tr →
        traceMatched tr + v.remainderUnits = totalBuyUnits input a := by
  intro as
  induction as with
  | nil =>
      intro lb ys mr fifos vols traces r h _ hinv
      simp only [runAssets, Except.ok.injEq] at h
      subst h
      exact hinv
  | cons a0 rest ih =>
      intro lb ys mr fifos vols traces r h halign hinv
      simp only [runAssets] at h
      cases hra : runAsset a0 (buysFor input a0) (sellsFor input a0) lb ys mr with
      | error e => rw [hra] at h; exact absurd h (by simp)
      | ok out =>
          rw [hra] at h
          dsimp only at h
          have hnew : traceMatched out.trace + out.vol.remainderUnits
              = totalBuyUnits input a0 := by
            unfold totalBuyUnits
            exact runAsset_conserve hra (sellsFor_nonpos input hs a0)
          refine ih _ _ _ _ _ _ _ h ?_ ?_
          · intro a
            cases hvo : vols.lookup a with
            | some v0 =>
                have htr0 : ∃ tr0, traces.lookup a = some tr0 := by
                  cases hto : traces.lookup a with
                  | none => exact absurd ((halign a).mpr hto) (by simp [hvo])
                  | some tr0 => exact ⟨tr0, rfl⟩
                obtain ⟨tr0, hto⟩ := htr0
                rw [lookup_append_some _ _ _ _ hvo, lookup_append_some _ _ _ _ hto]
                simp
            | none =>
                have hto : traces.lookup a = none := (halign a).mp hvo
                rw [lookup_append_none _ _ _ hvo, lookup_append_none _ _ _ hto,
                    lookup_single, lookup_single]
                cases hk : a == a0 <;> simp [hk]
          · intro a v tr hv htr
            cases hvo : vols.lookup a with
            | some v0 =>
                have hto : ∃ tr0, traces.lookup a = some tr0 := by
                  cases hto : traces.lookup a with
                  | none => exact absurd ((halign a).mpr hto) (by simp [hvo])
                  | some tr0 => exact ⟨tr0, rfl⟩
                obtain ⟨tr0, hto⟩ := hto
                rw [lookup_append_some _ _ _ _ hvo] at hv
                rw [lookup_append_some _ _ _ _ hto] at htr
                injection hv with hv
                injection htr with htr
                subst hv
                subst htr
                exact hinv a v0 tr0 hvo hto
            | none =>
                have hto : traces.lookup a = none := (halign a).mp hvo
                rw [lookup_append_none _ _ _ hvo, lookup_single] at hv
                rw [lookup_append_none _ _ _ hto, lookup_single] at htr
                cases hk : a == a0 with
                | false => rw [hk] at hv; simp at hv
                | true =>
                    rw [hk] at hv htr
                    simp only [if_true] at hv htr
                    cases hv
                    cases htr
                    have : a = a0 := by simpa using hk
                    rw [this]
                    exact hnew

theorem runAssets_ysOk (input : List InputTx) :
    ∀ (as : List String) (lb : Option Transaction) (ys : YearSummary)
      (mr : List MatchRec) (fifos : List (String × List FifoRow))
      (vols : List (String × VolumeSummary))
      (traces : List (String × List (Bool × MatchRec))) (r : RunResult),
      runAssets input as lb ys mr fifos vols traces = Except.ok r →
      ysOk ys → ysOk r.ys := by
  intro as
  induction as with
  | nil =>
      intro lb ys mr fifos vols traces r h hys
      simp only [runAssets, Except.ok.injEq] at h
      subst h
      exact hys
  | cons a0 rest ih =>
      intro lb ys mr fifos vols traces r h hys
      simp only [runAssets] at h
      cases hra : runAsset a0 (buysFor input a0) (sellsFor input a0) lb ys mr with
      | error e => rw [hra] at h; exact absurd h (by simp)
      | ok out =>
          rw [hra] at h
          dsimp only at h
          exact ih _ _ _ _ _ _ _ h (runAsset_ysOk hra hys)

theorem stepResult_margin_char (a : String) (buys : List Transaction) (s : Transaction)
    (h : (stepResult a buys s).isMargin = true) :
    (stepResult a buys s).m = marginM a s ∧
    (stepResult a buys s).poppedBuy = none ∧
    (stepResult a buys s).reqSell = none ∧
    (stepResult a buys s).buys = buys := by
  cases buys with
  | nil => rw [stepResult_nil]; exact ⟨rfl, rfl, rfl, rfl⟩
  | cons b brest =>
      by_cases h1 : s.timestamp + marginLeewaySec < b.timestamp
      · rw [stepResult_late a b brest s h1]; exact ⟨rfl, rfl, rfl, rfl⟩
      · by_cases h2 : b.units < absQ s.units
        · rw [stepResult_gt a b brest s h1 h2] at h; exact absurd h (by simp)
        · by_cases h3 : absQ s.units < b.units
          · rw [stepResult_lt a b brest s h1 h2 h3] at h; exact absurd h (by simp)
          · rw [stepResult_eq a b brest s h1 h2 h3] at h; exact absurd h (by simp)

theorem stepResult_nonmargin_char (a : String) (buys : List Transaction) (s : Transaction)
    (h : (stepResult a buys s).isMargin = false) :
    ∃ b bs, buys = b :: bs ∧
      (stepResult a buys s).poppedBuy = some b ∧
      (stepResult a buys s).m.datePurchased = b.timestamp ∧
      (stepResult a buys s).m.dateSold = s.timestamp := by
  cases buys with
  | nil => rw [stepResult_nil] at h; exact absurd h (by simp)
  | cons b brest =>
      by_cases h1 : s.timestamp + marginLeewaySec < b.timestamp
      · rw [stepResult_late a b brest s h1] at h; exact absurd h (by simp)
      · refine ⟨b, brest, rfl, ?_⟩
        by_cases h2 : b.units < absQ s.units
        · rw [stepResult_gt a b brest s h1 h2]; exact ⟨rfl, rfl, rfl⟩
        · by_cases h3 : absQ s.units < b.units
          · rw [stepResult_lt a b brest s h1 h2 h3]; exact ⟨rfl, rfl, rfl⟩
          · rw [stepResult_eq a b brest s h1 h2 h3]; exact ⟨rfl, rfl, rfl⟩

/-! ## Concrete objects used by witnesses -/

/-- A sale of one unit for 2000, second half of the ex1 sale. -/
def s10 : Transaction := { timestamp := 34560000, units := -1, totalAmount := 2000, irsId := "S1" }

/-- The ex1 purchase. -/
def b10 : Transaction := { timestamp := 0, units := 1, totalAmount := 1000, irsId := "B1" }

/-- A matcher state about to process an uncovered sale with buy_tx set. -/
def st10 : MState := initState "A" [] [s10] (some b10) ys0 []

/-- The state after that margin iteration. -/
def st10x : MState := (loopBody st10 s10 []).toOption.getD st10

/-- Scenario B purchase. -/
def bW : Transaction := { timestamp := 0, units := 2, totalAmount := 20000, irsId := "B1" }

/-- Scenario B sale. -/
def sW : Transaction := { timestamp := 864000, units := -1, totalAmount := 11000, irsId := "S1" }

/-- The ex3 sale (Scenario C). -/
def sC3 : Transaction := { timestamp := 0, units := -(1/2), totalAmount := 5000, irsId := "S1" }

/-- A finished match record used to exercise the shared loop tail. -/
def m0W : MatchRec :=
  { asset := "A", irsIdBuy := "B1", irsIdSell := "S1", datePurchased := 0, dateSold := 0,
    units := 1, salePrice := 150, basis := 100, gainLoss := 50 }

/-- A buy transaction standing for the buy_tx variable. -/
def bC : Transaction := { timestamp := 0, units := 1, totalAmount := 100, irsId := "B0" }

/-- The result of the shared loop tail on m0W. -/
def pmOut : MatchRec × YearSummary × VolumeSummary × List FifoRow :=
  (postMatch m0W 0 (some bC) ys0 vol0 []).toOption.getD (m0W, ys0, vol0, [])

/-- A default result used only to extract the ok payload of a run. -/
def rEmpty : RunResult := { fifo := [], margin := [], ys := ys0, vols := [], traces := [] }

/-- The result of the run on ex1. -/
def r1 : RunResult := (runAll ex1).toOption.getD rEmpty

/-- The result of the run on ex6 (Scenario B). -/
def r6 : RunResult := (runAll ex6).toOption.getD rEmpty

/-- The ex6 volume summary of asset A. -/
def v6 : VolumeSummary := (r6.vols.lookup "A").getD vol0

/-- The ex6 ghost trace of asset A. -/
def tr6 : List (Bool × MatchRec) := (r6.traces.lookup "A").getD []

/-! ## Claims -/

/-- C1, counterexample.  On ex1 the uncovered half of the sale produces
exactly one MarginLot in the cross-asset margin collection, but the same
record DOES appear in asset A's per-asset detail table (a match row with
the MARGIN sentinel), contradicting the claim that it does not. -/
theorem c1_cex :
    ((runAll ex1).toOption.map fun r =>
      (hasMarginRow ((r.fifo.lookup "A").getD []), r.margin.length)) = some (true, 1) := by
  decide

/-- C1, amended: a sale that triggers the margin test produces exactly
one MarginLot appended to the cross-asset margin collection, and the
same match is ALSO appended to that asset's per-asset detail table
whenever its matched units exceed the 1e-8 dust threshold. -/
theorem c1_thm {st : MState} {s : Transaction} {rest : List Transaction} {st2 : MState}
    (hok : loopBody st s rest = Except.ok st2)
    (hm : (stepResult st.asset st.buys s).isMargin = true) :
    st2.mr = st.mr ++ [(stepResult st.asset st.buys s).m] ∧
    st2.fr = (if dust < |(stepResult st.asset st.buys s).m.units| then
        st.fr ++ [FifoRow.matchRow (finalizeM (stepResult st.asset st.buys s).m)]
      else st.fr) := by
  obtain ⟨b, hb, hst⟩ := loopBody_ok hok
  subst hst
  constructor
  · simp [loopOut, hm]
  · simp only [loopOut, finalizeM, absQ_eq_abs]

/-- C1, witness for the amended theorem at a concrete margin step. -/
theorem c1_wit :
    st10x.mr = st10.mr ++ [(stepResult st10.asset st10.buys s10).m] ∧
    st10x.fr = (if dust < |(stepResult st10.asset st10.buys s10).m.units| then
        st10.fr ++ [FifoRow.matchRow (finalizeM (stepResult st10.asset st10.buys s10).m)]
      else st10.fr) :=
  c1_thm rfl rfl

/-- C2, counterexample.  The claim says a reduced entry is never
reinserted with units below the 1e-8 tolerance.  On ex4 the sale is
reduced to -1e-9 units, reinserted anyway, and later processed as a
margin sale of 1e-9 units - so it was neither treated as zero nor
dropped. -/
theorem c2_cex :
    (stepResult "A" [{ timestamp := 0, units := 1, totalAmount := 1, irsId := "B1" }]
        { timestamp := 0, units := -(1 + 1/1000000000), totalAmount := 2, irsId := "S1" }).reqSell =
      some { timestamp := 0, units := -(1/1000000000),
             totalAmount := 2/1000000001, irsId := "S1" } ∧
    ¬(dust < |(-(1/1000000000) : ℚ)|) ∧
    ((runAll ex4).toOption.map fun r => r.margin.map fun m => m.units) =
      some [1/1000000000] := by
  exact ⟨by decide, by decide, by decide⟩

/-- C2, amended: the per-asset matching loop terminates because each
iteration strictly shrinks the combined length of the two queues (and
the fuel bound of the embedding is therefore never exhausted); a
partially consumed sale is reinserted at the head of the sale queue
unconditionally, even when its remaining units are below the 1e-8
tolerance - the script has no dust drop on requeue. -/
theorem c2_thm :
    (∀ (a : String) (buys : List Transaction) (s : Transaction) (rest : List Transaction),
      (stepResult a buys s).buys.length + (requeue (stepResult a buys s).reqSell rest).length
        < buys.length + (s :: rest).length) ∧
    (∀ st : MState, matchLoop st ≠ Except.error fuelMsg) ∧
    (∀ (a : String) (b : Transaction) (brest : List Transaction) (s : Transaction),
      ¬s.timestamp + marginLeewaySec < b.timestamp → b.units < |s.units| →
      (stepResult a (b :: brest) s).reqSell =
        some { s with units := s.units + b.units,
                      totalAmount := s.totalAmount - b.units / |s.units| * s.totalAmount }) := by
  refine ⟨stepResult_measure, matchLoop_not_fuel, ?_⟩
  intro a b brest s h1 h2
  rw [← absQ_eq_abs] at h2 ⊢
  rw [stepResult_gt a b brest s h1 h2]

/-- C2, witness for the amended theorem: the ex4 step reinserts the
dust-sized remainder. -/
theorem c2_wit :
    (¬(0 : Int) + marginLeewaySec < (0 : Int)) ∧
    ((1 : ℚ) < |(-(1 + 1/1000000000) : ℚ)|) ∧
    (stepResult "A" [{ timestamp := 0, units := 1, totalAmount := 1, irsId := "B1" }]
        { timestamp := 0, units := -(1 + 1/1000000000), totalAmount := 2, irsId := "S1" }).reqSell =
      some { timestamp := 0,
             units := (-(1 + 1/1000000000) : ℚ) + 1,
             totalAmount := 2 - 1 / |(-(1 + 1/1000000000) : ℚ)| * 2, irsId := "S1" } :=
  ⟨by decide, by decide,
   c2_thm.2.2 "A" { timestamp := 0, units := 1, totalAmount := 1, irsId := "B1" } []
     { timestamp := 0, units := -(1 + 1/1000000000), totalAmount := 2, irsId := "S1" }
     (by decide) (by decide)⟩

/-- C3: the claim says processing an uncovered sale never raises, even
when it is the first sale processed.  The script instead hits a
NameError at line 216 (buy_tx referenced before any assignment) when the
first processed sale is uncovered; the embedding returns that error on
the one-sale ledger ex3. -/
theorem c3_thm : runAll ex3 = Except.error nameErrorMsg := rfl

/-- C9: the margin branch is taken iff the buy queue is empty or the
earliest purchase is more than 15 seconds after the sale, and the
MarginLot then has matchedUnits the absolute sale units, salePrice the
sale proceeds, basis zero, gainLoss equal to salePrice, and both dates
equal to the sale timestamp. -/
theorem c9_thm (a : String) (buys : List Transaction) (s : Transaction) :
    ((stepResult a buys s).isMargin = true ↔
      buys = [] ∨ ∃ b bs, buys = b :: bs ∧ s.timestamp + marginLeewaySec < b.timestamp) ∧
    ((stepResult a buys s).isMargin = true →
      (stepResult a buys s).m.units = |s.units| ∧
      (stepResult a buys s).m.salePrice = s.totalAmount ∧
      (stepResult a buys s).m.basis = 0 ∧
      (stepResult a buys s).m.gainLoss = (stepResult a buys s).m.salePrice ∧
      (stepResult a buys s).m.datePurchased = s.timestamp ∧
      (stepResult a buys s).m.dateSold = s.timestamp) := by
  constructor
  · constructor
    · intro h
      cases hb : buys with
      | nil => exact Or.inl rfl
      | cons b bs =>
          subst hb
          by_cases h1 : s.timestamp + marginLeewaySec < b.timestamp
          · exact Or.inr ⟨b, bs, rfl, h1⟩
          · by_cases h2 : b.units < absQ s.units
            · rw [stepResult_gt a b bs s h1 h2] at h; exact absurd h (by simp)
            · by_cases h3 : absQ s.units < b.units
              · rw [stepResult_lt a b bs s h1 h2 h3] at h; exact absurd h (by simp)
              · rw [stepResult_eq a b bs s h1 h2 h3] at h; exact absurd h (by simp)
    · intro h
      rcases h with h | ⟨b, bs, hb, hlt⟩
      · subst h; rfl
      · subst hb; rw [stepResult_late a b bs s hlt]
  · intro h
    obtain ⟨hm, -, -, -⟩ := stepResult_margin_char a buys s h
    rw [hm]
    unfold marginM
    refine ⟨?_, rfl, rfl, rfl, rfl, rfl⟩
    exact absQ_eq_abs s.units

/-- C9, witness at the Scenario C sale with an empty purchase queue. -/
theorem c9_wit :
    ((stepResult "BTC" [] sC3).isMargin = true) ∧
    ((stepResult "BTC" [] sC3).m.units = |sC3.units| ∧
     (stepResult "BTC" [] sC3).m.salePrice = sC3.totalAmount ∧
     (stepResult "BTC" [] sC3).m.basis = 0 ∧
     (stepResult "BTC" [] sC3).m.gainLoss = (stepResult "BTC" [] sC3).m.salePrice ∧
     (stepResult "BTC" [] sC3).m.datePurchased = sC3.timestamp ∧
     (stepResult "BTC" [] sC3).m.dateSold = sC3.timestamp) :=
  ⟨rfl, (c9_thm "BTC" [] sC3).2 rfl⟩

/-- C4: for a non-margin match on a validated sale (units nonpositive),
the three magnitude branches produce exactly the claimed record fields
and queue updates: sale bigger - purchase consumed, pro-rata sale price,
reduced sale reinserted at the head of the sale queue; purchase bigger -
sale consumed, pro-rata basis, reduced purchase reinserted at the head
of the purchase queue; equal - both consumed, nothing requeued. -/
theorem c4_thm (a : String) (b : Transaction) (brest : List Transaction)
    (s : Transaction) (rest : List Transaction)
    (hm : ¬s.timestamp + marginLeewaySec < b.timestamp)
    (hs : s.units ≤ 0) :
    (b.units < |s.units| →
      (stepResult a (b :: brest) s).m.units = b.units ∧
      (stepResult a (b :: brest) s).m.salePrice = b.units / |s.units| * s.totalAmount ∧
      (stepResult a (b :: brest) s).m.basis = b.totalAmount ∧
      (stepResult a (b :: brest) s).buys = brest ∧
      requeue (stepResult a (b :: brest) s).reqSell rest =
        { s with units := s.units + b.units,
                 totalAmount := s.totalAmount - b.units / |s.units| * s.totalAmount } :: rest) ∧
    (|s.units| < b.units →
      (stepResult a (b :: brest) s).m.units = |s.units| ∧
      (stepResult a (b :: brest) s).m.salePrice = s.totalAmount ∧
      (stepResult a (b :: brest) s).m.basis = |s.units| / b.units * b.totalAmount ∧
      (stepResult a (b :: brest) s).buys =
        { b with units := b.units - |s.units|,
                 totalAmount := b.totalAmount - |s.units| / b.units * b.totalAmount } :: brest ∧
      requeue (stepResult a (b :: brest) s).reqSell rest = rest) ∧
    (|s.units| = b.units →
      (stepResult a (b :: brest) s).m.units = b.units ∧
      (stepResult a (b :: brest) s).m.salePrice = s.totalAmount ∧
      (stepResult a (b :: brest) s).m.basis = b.totalAmount ∧
      (stepResult a (b :: brest) s).buys = brest ∧
      requeue (stepResult a (b :: brest) s).reqSell rest = rest) := by
  have habs : |s.units| = -s.units := abs_of_nonpos hs
  refine ⟨?_, ?_, ?_⟩
  · intro h2
    rw [← absQ_eq_abs] at h2 ⊢
    rw [stepResult_gt a b brest s hm h2]
    exact ⟨rfl, rfl, rfl, rfl, rfl⟩
  · intro h3
    have h2 : ¬b.units < |s.units| := not_lt.mpr (le_of_lt h3)
    rw [← absQ_eq_abs] at h2 h3 ⊢
    rw [stepResult_lt a b brest s hm h2 h3]
    refine ⟨rfl, rfl, rfl, ?_, rfl⟩
    have hx : b.units - absQ s.units = b.units + s.units := by
      rw [absQ_eq_abs, habs]; ring
    rw [hx]
  · intro heq
    have h2 : ¬b.units < |s.units| := not_lt.mpr (le_of_eq heq)
    have h3 : ¬|s.units| < b.units := not_lt.mpr (ge_of_eq heq)
    rw [← absQ_eq_abs] at h2 h3
    rw [stepResult_eq a b brest s hm h2 h3]
    exact ⟨rfl, rfl, rfl, rfl, rfl⟩

/-- C4, witness: Scenario B (purchase 2 units for 20000, sale 1 unit for
11000) takes the purchase-bigger branch. -/
theorem c4_wit :
    (|sW.units| < bW.units) ∧
    ((stepResult "A" [bW] sW).m.units = |sW.units| ∧
     (stepResult "A" [bW] sW).m.salePrice = sW.totalAmount ∧
     (stepResult "A" [bW] sW).m.basis = |sW.units| / bW.units * bW.totalAmount ∧
     (stepResult "A" [bW] sW).buys =
       { bW with units := bW.units - |sW.units|,
                 totalAmount := bW.totalAmount - |sW.units| / bW.units * bW.totalAmount } :: [] ∧
     requeue (stepResult "A" [bW] sW).reqSell [] = []) :=
  ⟨by decide, (c4_thm "A" bW [] sW [] (by decide) (by decide)).2.1 (by decide)⟩

/-- C5, counterexample.  On ex1 the margin match has dateSold equal to
datePurchased (holding period zero, far below 365 days) and a positive
gainLoss of 2000, so by the claim it would be added to the short-term
gain bucket; the code instead adds it to the long-term gain bucket
(STCG stays 0, LTCG ends at 3000). -/
theorem c5_cex :
    ((runAll ex1).toOption.map fun r =>
      (r.ys.totals.stcg, r.ys.totals.ltcg,
       r.margin.map fun m => (m.dateSold - m.datePurchased, m.gainLoss))) =
      some (0, 3000, [(0, 2000)]) := by
  decide

/-- C5, amended: each year-summary update is long-term iff the sale
timestamp minus the timestamp of the buy_tx variable is at least 365
days, and a nonpositive gainLoss - including exactly zero - goes to the
corresponding loss bucket, never a gain bucket, while Net CG always
receives it; for every non-margin match the buy_tx timestamp equals the
match's own purchase date (for margin matches it is the stale previous
pop, see C10). -/
theorem c5_thm :
    (∀ (ys : YearSummary) (sTs bTs : Int) (gl : ℚ),
      (longTermSec ≤ sTs - bTs →
        (updateYearSummary ys sTs bTs gl).totals.stcg = ys.totals.stcg ∧
        (updateYearSummary ys sTs bTs gl).totals.stcl = ys.totals.stcl ∧
        (gl ≤ 0 →
          (updateYearSummary ys sTs bTs gl).totals.ltcl = ys.totals.ltcl + gl ∧
          (updateYearSummary ys sTs bTs gl).totals.ltcg = ys.totals.ltcg) ∧
        (0 < gl →
          (updateYearSummary ys sTs bTs gl).totals.ltcg = ys.totals.ltcg + gl ∧
          (updateYearSummary ys sTs bTs gl).totals.ltcl = ys.totals.ltcl)) ∧
      (sTs - bTs < longTermSec →
        (updateYearSummary ys sTs bTs gl).totals.ltcg = ys.totals.ltcg ∧
        (updateYearSummary ys sTs bTs gl).totals.ltcl = ys.totals.ltcl ∧
        (gl ≤ 0 →
          (updateYearSummary ys sTs bTs gl).totals.stcl = ys.totals.stcl + gl ∧
          (updateYearSummary ys sTs bTs gl).totals.stcg = ys.totals.stcg) ∧
        (0 < gl →
          (updateYearSummary ys sTs bTs gl).totals.stcg = ys.totals.stcg + gl ∧
          (updateYearSummary ys sTs bTs gl).totals.stcl = ys.totals.stcl)) ∧
      (updateYearSummary ys sTs bTs gl).totals.netcg = ys.totals.netcg + gl) ∧
    (∀ (st : MState) (s : Transaction) (rest : List Transaction) (st2 : MState),
      loopBody st s rest = Except.ok st2 →
      (stepResult st.asset st.buys s).isMargin = false →
      ∃ b, (stepResult st.asset st.buys s).poppedBuy = some b ∧
        b.timestamp = (stepResult st.asset st.buys s).m.datePurchased ∧
        st2.ys = updateYearSummary st.ys s.timestamp b.timestamp
          (finalizeM (stepResult st.asset st.buys s).m).gainLoss) := by
  constructor
  · intro ys sTs bTs gl
    refine ⟨?_, ?_, ?_⟩
    · intro hlong
      have hd : decide (sTs - bTs < longTermSec) = false :=
        decide_eq_false (not_lt.mpr hlong)
      unfold updateYearSummary
      dsimp only
      rw [hd]
      refine ⟨?_, ?_, ?_, ?_⟩
      · rw [bumpBucket_stcg]; simp
      · rw [bumpBucket_stcl]; simp
      · intro hgl
        have hg : decide ((0:ℚ) < gl) = false := decide_eq_false (not_lt.mpr hgl)
        rw [hg]
        exact ⟨by rw [bumpBucket_ltcl]; simp, by rw [bumpBucket_ltcg]; simp⟩
      · intro hgl
        have hg : decide ((0:ℚ) < gl) = true := decide_eq_true hgl
        rw [hg]
        exact ⟨by rw [bumpBucket_ltcg]; simp, by rw [bumpBucket_ltcl]; simp⟩
    · intro hshort
      have hd : decide (sTs - bTs < longTermSec) = true := decide_eq_true hshort
      unfold updateYearSummary
      dsimp only
      rw [hd]
      refine ⟨?_, ?_, ?_, ?_⟩
      · rw [bumpBucket_ltcg]; simp
      · rw [bumpBucket_ltcl]; simp
      · intro hgl
        have hg : decide ((0:ℚ) < gl) = false := decide_eq_false (not_lt.mpr hgl)
        rw [hg]
        exact ⟨by rw [bumpBucket_stcl]; simp, by rw [bumpBucket_stcg]; simp⟩
      · intro hgl
        have hg : decide ((0:ℚ) < gl) = true := decide_eq_true hgl
        rw [hg]
        exact ⟨by rw [bumpBucket_stcg]; simp, by rw [bumpBucket_stcl]; simp⟩
    · unfold updateYearSummary
      dsimp only
      rw [bumpBucket_netcg]
  · intro st s rest st2 hok hnm
    obtain ⟨b, hb, hst⟩ := loopBody_ok hok
    obtain ⟨b0, bs0, hbuys, hpop, hdate, -⟩ :=
      stepResult_nonmargin_char st.asset st.buys s hnm
    rw [hpop] at hb
    simp only [pickLastBuy] at hb
    cases hb
    subst hst
    exact ⟨b, hpop, hdate.symm, by simp [loopOut]⟩

/-- C5, witness for the amended theorem: a 365-day gain of 5 lands in
the long-term gain bucket and leaves the short-term gain bucket
unchanged. -/
theorem c5_wit :
    (updateYearSummary ys0 31536000 0 5).totals.ltcg = ys0.totals.ltcg + 5 ∧
    (updateYearSummary ys0 31536000 0 5).totals.stcg = ys0.totals.stcg := by
  have h := (c5_thm.1 ys0 31536000 0 5).1 (by decide)
  exact ⟨(h.2.2.2 (by norm_num)).1, h.1⟩

/-- C6: the year-summary invariant - every bucket satisfies
netGainLoss = shortTermGain + shortTermLoss + longTermGain +
longTermLoss and every totals field is the sum of that field over the
per-year buckets - holds initially, is preserved by every single
year-summary update (hence at every point during processing, since the
summary changes only through updateYearSummary), and holds of the final
result of every successful run. -/
theorem c6_thm :
    ysOk ys0 ∧
    (∀ (ys : YearSummary) (sTs bTs : Int) (gl : ℚ),
      ysOk ys → ysOk (updateYearSummary ys sTs bTs gl)) ∧
    (∀ (input : List InputTx) (r : RunResult),
      runAll input = Except.ok r → ysOk r.ys) := by
  refine ⟨ysOk_ys0, ysOk_update, ?_⟩
  intro input r h
  exact runAssets_ysOk input (assetOrder input) none ys0 [] [] [] [] r h ysOk_ys0

/-- C6, witness on the finished ex1 run. -/
theorem c6_wit : ysOk r1.ys :=
  c6_thm.2.2 ex1 r1 rfl

/-- C7, counterexample.  On ex2 the dust-sized uncovered sale (1e-9
units, below the 1e-8 tolerance) is nevertheless emitted as a row of
the margin detail table: the script only dust-filters the per-asset
FIFO table, never the margin collection. -/
theorem c7_cex :
    ((runAll ex2).toOption.map fun r => r.margin.map fun m => m.units) =
      some [1/1000000000] ∧
    ((1/1000000000 : ℚ) ≤ dust) := by
  exact ⟨by decide, by decide⟩

/-- C7, amended: a match with absolute matched units at most 1e-8 is
suppressed from the per-asset FIFO detail table while one above the
threshold is emitted; in both cases the volume summary and the year
summary are updated unconditionally; a margin match, however, is
appended to the margin collection unconditionally, dust or not. -/
theorem c7_thm :
    (∀ (m0 : MatchRec) (sTs : Int) (b : Transaction) (ys : YearSummary)
       (vol : VolumeSummary) (fr : List FifoRow) (m : MatchRec) (ys2 : YearSummary)
       (vol2 : VolumeSummary) (fr2 : List FifoRow),
      postMatch m0 sTs (some b) ys vol fr = Except.ok (m, ys2, vol2, fr2) →
      (dust < |m.units| → fr2 = fr ++ [FifoRow.matchRow m]) ∧
      (|m.units| ≤ dust → fr2 = fr) ∧
      vol2.gainLoss = vol.gainLoss + m.gainLoss ∧
      vol2.salePrice = vol.salePrice + m.salePrice ∧
      vol2.basis = vol.basis + m.basis ∧
      ys2 = updateYearSummary ys sTs b.timestamp m.gainLoss) ∧
    (∀ (st : MState) (s : Transaction) (rest : List Transaction) (st2 : MState),
      loopBody st s rest = Except.ok st2 →
      (stepResult st.asset st.buys s).isMargin = true →
      st2.mr = st.mr ++ [(stepResult st.asset st.buys s).m]) := by
  constructor
  · intro m0 sTs b ys vol fr m ys2 vol2 fr2 h
    obtain ⟨b', hb', hm, hys, hvol, hfr⟩ := postMatch_ok h
    injection hb' with hb'
    subst hb'
    subst hm
    refine ⟨?_, ?_, ?_, ?_, ?_, ?_⟩
    · intro hd
      rw [← absQ_eq_abs] at hd
      rw [hfr, if_pos hd]
    · intro hd
      rw [← absQ_eq_abs] at hd
      rw [hfr, if_neg (not_lt.mpr hd)]
    · rw [hvol]
    · rw [hvol]
    · rw [hvol]
    · exact hys
  · intro st s rest st2 hok hm
    obtain ⟨b, hb, hst⟩ := loopBody_ok hok
    subst hst
    simp [loopOut, hm]

/-- C7, witness for the amended theorem on a concrete non-dust match. -/
theorem c7_wit :
    (dust < |m0W.units|) ∧
    pmOut.2.2.2 = [] ++ [FifoRow.matchRow pmOut.1] ∧
    pmOut.2.2.1.gainLoss = vol0.gainLoss + pmOut.1.gainLoss ∧
    pmOut.2.1 = updateYearSummary ys0 0 bC.timestamp pmOut.1.gainLoss := by
  have h := c7_thm.1 m0W 0 bC ys0 vol0 [] pmOut.1 pmOut.2.1 pmOut.2.2.1 pmOut.2.2.2 rfl
  exact ⟨by decide, h.1 (by decide), h.2.2.1, h.2.2.2.2.2⟩

/-- C8, counterexample.  On ex5 (two dust-sized purchases consumed by
one sale) both matches are dust-suppressed: the emitted MatchedLots and
carryovers sum to 0 units while 2e-8 units were purchased, a gap of
2e-8 that exceeds the 1e-8 dust tolerance the claim allows. -/
theorem c8_cex :
    ((runAll ex5).toOption.map fun r =>
      (emittedMatchedUnits ((r.fifo.lookup "A").getD []),
       emittedRemainderUnits ((r.fifo.lookup "A").getD []))) = some (0, 0) ∧
    totalBuyUnits ex5 "A" = 2/100000000 ∧
    ¬(|totalBuyUnits ex5 "A" - (0 + 0)| ≤ dust) := by
  exact ⟨by decide, by decide, by decide⟩

/-- C8, amended: conservation holds exactly once dust-suppressed
matches are counted - for every asset of a validated ledger (sale units
nonpositive), the total units purchased equal the matched units summed
over ALL non-margin matches of that asset (the ghost trace, including
dust-suppressed ones) plus the remainder units accumulated in the
asset's volume summary (which include dust-suppressed carryovers). -/
theorem c8_thm (input : List InputTx)
    (hs : ∀ t ∈ input, t.kind = "Sell" → t.units ≤ 0)
    (r : RunResult) (hr : runAll input = Except.ok r)
    (a : String) (v : VolumeSummary) (tr : List (Bool × MatchRec))
    (hv : r.vols.lookup a = some v) (htr : r.traces.lookup a = some tr) :
    totalBuyUnits input a = traceMatched tr + v.remainderUnits := by
  have h := runAssets_conserve input hs (assetOrder input) none ys0 [] [] [] [] r hr
    (by intro a0; simp [List.lookup])
    (by intro a0 v0 tr0 h0; simp [List.lookup] at h0)
    a v tr hv htr
  exact h.symm

/-- C8, witness: Scenario B conserves units (2 purchased = 1 matched +
1 carryover). -/
theorem c8_wit : totalBuyUnits ex6 "A" = traceMatched tr6 + v6.remainderUnits :=
  c8_thm ex6 (by decide) r6 rfl "A" v6 tr6 rfl rfl

/-- C10: when a margin match is processed with the buy_tx variable set
(as after any non-margin match), its year-summary classification uses
the timestamp of that most recently popped purchase - not the margin
lot's own purchase date, which equals the sale date; after every
non-margin step buy_tx is exactly the purchase just popped; and
consequently, on ex1, the margin sale's 2000 proceeds (holding period
zero by its own dates) are bucketed long-term. -/
theorem c10_thm :
    (∀ (st : MState) (s : Transaction) (rest : List Transaction) (st2 : MState)
       (b : Transaction),
      loopBody st s rest = Except.ok st2 →
      (stepResult st.asset st.buys s).isMargin = true →
      st.lastBuy = some b →
      st2.ys = updateYearSummary st.ys s.timestamp b.timestamp
        (finalizeM (stepResult st.asset st.buys s).m).gainLoss ∧
      (stepResult st.asset st.buys s).m.datePurchased = s.timestamp ∧
      (stepResult st.asset st.buys s).m.dateSold = s.timestamp) ∧
    (∀ (st : MState) (s : Transaction) (rest : List Transaction) (st2 : MState),
      loopBody st s rest = Except.ok st2 →
      (stepResult st.asset st.buys s).isMargin = false →
      st2.lastBuy = (stepResult st.asset st.buys s).poppedBuy) ∧
    ((runAll ex1).toOption.map fun r =>
      (r.ys.totals.ltcg, r.ys.totals.stcg,
       r.margin.map fun m => (m.dateSold - m.datePurchased, m.gainLoss))) =
      some (3000, 0, [(0, 2000)]) := by
  refine ⟨?_, ?_, by decide⟩
  · intro st s rest st2 b hok hm hlb
    obtain ⟨b', hb', hst⟩ := loopBody_ok hok
    obtain ⟨hmm, hpop, -, -⟩ := stepResult_margin_char st.asset st.buys s hm
    rw [hpop] at hb'
    simp only [pickLastBuy] at hb'
    rw [hlb] at hb'
    injection hb' with hb'
    subst hb'
    subst hst
    refine ⟨by simp [loopOut], ?_, ?_⟩
    · rw [hmm]; rfl
    · rw [hmm]; rfl
  · intro st s rest st2 hok hnm
    obtain ⟨b', hb', hst⟩ := loopBody_ok hok
    obtain ⟨b0, bs0, hbuys, hpop, -, -⟩ :=
      stepResult_nonmargin_char st.asset st.buys s hnm
    rw [hpop] at hb' ⊢
    simp only [pickLastBuy] at hb'
    cases hb'
    subst hst
    simp [loopOut]

/-- C10, witness at a concrete margin step with a stale buy_tx from
time 0 and a sale at day 400. -/
theorem c10_wit :
    st10x.ys = updateYearSummary st10.ys s10.timestamp b10.timestamp
      (finalizeM (stepResult st10.asset st10.buys s10).m).gainLoss ∧
    (stepResult st10.asset st10.buys s10).m.datePurchased = s10.timestamp ∧
    (stepResult st10.asset st10.buys s10).m.dateSold = s10.timestamp :=
  c10_thm.1 st10 s10 [] st10x b10 rfl rfl rfl
